import Mathlib

/-!
Verification of the Slotted ALOHA simulation engine of
`src/pages/Slotted_Aloha.py` against its specification.

The engine consists of `simulate_slotted_aloha`, which runs the per-slot
Bernoulli trial loop and computes aggregate statistics, and
`get_theoretical_throughput`, which computes the closed-form curve
`S(G) = G * exp (-G)`.  The Python source draws from the global NumPy
random generator inside the loop; we embed that generator shallowly as an
explicit stream `ℕ → ℚ` of uniform draws together with a cursor giving the
position at which an invocation starts reading, so that the stateful global
generator becomes explicit state passing.
-/

set_option maxHeartbeats 1000000

/-- Status string classifying a slot, exactly the if/elif/else chain of
`simulate_slotted_aloha`: `0` transmitters give `"Idle"`, exactly `1` gives
`"Success"`, two or more give `"Collision"`. -/
def slotStatus (num_transmissions : ℕ) : String :=
  if num_transmissions = 0 then "Idle"
  else if num_transmissions = 1 then "Success"
  else "Collision"

/-- Number of transmitting nodes in one slot.  The source computes
`transmitting_nodes = np.random.random(num_nodes) < p` and
`num_transmissions = np.sum(transmitting_nodes)`: node `i` of this slot reads
uniform draw `base + i` of the global stream and transmits when it is `< p`;
the result is the count of such nodes. -/
def numTransmissions (stream : ℕ → ℚ) (num_nodes : ℕ) (p : ℚ) (base : ℕ) : ℕ :=
  (List.range num_nodes).countP fun i => decide (stream (base + i) < p)

/-- Accumulator of the simulation loop: the growing `slots_data` list and the
three running counters of `simulate_slotted_aloha`. -/
structure RunAcc where
  slots_data : List (ℕ × ℕ × String)
  successful : ℕ
  collisions : ℕ
  idle : ℕ

/-- The `for slot in range(num_slots)` loop of `simulate_slotted_aloha`:
for each slot, count the transmissions (consuming `num_nodes` draws of the
global stream starting at cursor `pos + slot * num_nodes`), classify the slot
and bump the matching counter, then append `(slot, num_transmissions, status)`
to `slots_data`. -/
def runLoop (num_nodes : ℕ) (p : ℚ) (stream : ℕ → ℚ) (pos : ℕ) :
    List ℕ → RunAcc → RunAcc
  | [], acc => acc
  | slot :: rest, acc =>
    let num_transmissions := numTransmissions stream num_nodes p (pos + slot * num_nodes)
    let step : String × RunAcc :=
      if num_transmissions = 0 then
        ("Idle", { acc with idle := acc.idle + 1 })
      else if num_transmissions = 1 then
        ("Success", { acc with successful := acc.successful + 1 })
      else
        ("Collision", { acc with collisions := acc.collisions + 1 })
    runLoop num_nodes p stream pos rest
      { step.2 with slots_data := step.2.slots_data ++ [(slot, num_transmissions, step.1)] }

/-- Errors the engine can surface.  `zeroDivisionError` models the uncaught
Python `ZeroDivisionError` raised by `successful_transmissions / num_slots`
when `num_slots = 0`; `invalidParameter` models the `InvalidParameter` error
of the specification's error taxonomy, carrying the name of the offending
field (the source contains no code that raises it). -/
inductive SimError where
  | zeroDivisionError : SimError
  | invalidParameter : String → SimError
deriving DecidableEq

/-- Aggregate statistics dictionary returned by `simulate_slotted_aloha`,
field for field: the three counters, `throughput`, `theoretical_max = 1/e`,
`offered_load = num_nodes * p` and `efficiency`. -/
structure Statistics where
  successful : ℕ
  collisions : ℕ
  idle : ℕ
  throughput : ℝ
  theoretical_max : ℝ
  offered_load : ℝ
  efficiency : ℝ

/-- Shallow embedding of `simulate_slotted_aloha(num_nodes, p, num_slots)`.
The global NumPy generator is passed explicitly as the draw stream plus the
cursor `pos` at which this invocation starts reading.  The body has no
parameter validation; it runs the per-slot loop, then computes
`throughput = successful_transmissions / num_slots` — in Python an uncaught
`ZeroDivisionError` when `num_slots = 0` — and the derived statistics
`theoretical_max = 1 / e`, `offered_load = num_nodes * p` and
`efficiency = (throughput / theoretical_max) * 100`. -/
noncomputable def simulate_slotted_aloha (num_nodes : ℕ) (p : ℚ) (num_slots : ℕ)
    (stream : ℕ → ℚ) (pos : ℕ) :
    Except SimError (List (ℕ × ℕ × String) × Statistics) :=
  let acc := runLoop num_nodes p stream pos (List.range num_slots) ⟨[], 0, 0, 0⟩
  if num_slots = 0 then Except.error SimError.zeroDivisionError
  else
    let throughput : ℝ := (acc.successful : ℝ) / (num_slots : ℝ)
    let theoretical_max : ℝ := 1 / Real.exp 1
    let offered_load : ℝ := (num_nodes : ℝ) * (p : ℝ)
    Except.ok (acc.slots_data,
      { successful := acc.successful
        collisions := acc.collisions
        idle := acc.idle
        throughput := throughput
        theoretical_max := theoretical_max
        offered_load := offered_load
        efficiency := throughput / theoretical_max * 100 })

/-- Record appended to `slots_data` for slot `slot`. -/
def slotEntry (stream : ℕ → ℚ) (num_nodes : ℕ) (p : ℚ) (pos slot : ℕ) : ℕ × ℕ × String :=
  (slot, numTransmissions stream num_nodes p (pos + slot * num_nodes),
    slotStatus (numTransmissions stream num_nodes p (pos + slot * num_nodes)))

/-- Closed form of the simulation loop: it appends one classified entry per
slot, in order, and each counter counts the slots whose transmission count
falls in the matching class. -/
theorem runLoop_eq (num_nodes : ℕ) (p : ℚ) (stream : ℕ → ℚ) (pos : ℕ)
    (L : List ℕ) (acc : RunAcc) :
    runLoop num_nodes p stream pos L acc =
      { slots_data := acc.slots_data ++ L.map (slotEntry stream num_nodes p pos)
        successful := acc.successful +
          L.countP (fun s => decide (numTransmissions stream num_nodes p (pos + s * num_nodes) = 1))
        collisions := acc.collisions +
          L.countP (fun s => decide (2 ≤ numTransmissions stream num_nodes p (pos + s * num_nodes)))
        idle := acc.idle +
          L.countP (fun s => decide (numTransmissions stream num_nodes p (pos + s * num_nodes) = 0)) } := by
  induction L generalizing acc with
  | nil => simp [runLoop]
  | cons slot rest ih =>
    simp only [runLoop]
    rcases Nat.lt_or_ge (numTransmissions stream num_nodes p (pos + slot * num_nodes)) 2
      with h2 | h2
    · interval_cases h : numTransmissions stream num_nodes p (pos + slot * num_nodes)
      · rw [if_pos rfl, ih]
        simp only [List.map_cons, List.countP_cons, slotEntry, slotStatus, h,
          RunAcc.mk.injEq, if_pos rfl]
        refine ⟨by simp, ?_, ?_, ?_⟩ <;> simp <;> omega
      · rw [if_neg (by omega), if_pos rfl, ih]
        simp only [List.map_cons, List.countP_cons, slotEntry, slotStatus, h,
          RunAcc.mk.injEq]
        refine ⟨by simp, ?_, ?_, ?_⟩ <;> simp <;> omega
    · rw [if_neg (by omega), if_neg (by omega), ih]
      simp only [List.map_cons, List.countP_cons, slotEntry, slotStatus,
        RunAcc.mk.injEq]
      refine ⟨?_, ?_, ?_, ?_⟩
      · rw [if_neg (by omega), if_neg (by omega)]
        simp
      · have : decide (numTransmissions stream num_nodes p (pos + slot * num_nodes) = 1)
          = false := by simp; omega
        simp [this]
      · have : decide (2 ≤ numTransmissions stream num_nodes p (pos + slot * num_nodes))
          = true := by simpa using h2
        simp [this]
        omega
      · have : decide (numTransmissions stream num_nodes p (pos + slot * num_nodes) = 0)
          = false := by simp; omega
        simp [this]

/-- Shallow embedding of `get_theoretical_throughput(G_values)`: the NumPy
vectorised expression `G_values * np.exp(-G_values)` applied elementwise to
the load values, with no domain check of any kind. -/
noncomputable def get_theoretical_throughput (G_values : List ℝ) : List ℝ :=
  G_values.map fun G => G * Real.exp (-G)

theorem slotStatus_eq_idle (c : ℕ) : slotStatus c = "Idle" ↔ c = 0 := by
  rcases c with _ | _ | c <;> simp [slotStatus]

theorem slotStatus_eq_success (c : ℕ) : slotStatus c = "Success" ↔ c = 1 := by
  rcases c with _ | _ | c <;> simp [slotStatus]

theorem slotStatus_eq_collision (c : ℕ) : slotStatus c = "Collision" ↔ 2 ≤ c := by
  rcases c with _ | _ | c <;> simp [slotStatus]

/-- Successful runs are exactly those with `num_slots ≠ 0`, and the trace
component is the `slots_data` of the loop. -/
theorem simulate_ok (num_nodes : ℕ) (p : ℚ) (num_slots : ℕ)
    (stream : ℕ → ℚ) (pos : ℕ) (h : num_slots ≠ 0) :
    simulate_slotted_aloha num_nodes p num_slots stream pos =
      Except.ok
        ((List.range num_slots).map (slotEntry stream num_nodes p pos),
          { successful := (List.range num_slots).countP
              (fun s => decide (numTransmissions stream num_nodes p (pos + s * num_nodes) = 1))
            collisions := (List.range num_slots).countP
              (fun s => decide (2 ≤ numTransmissions stream num_nodes p (pos + s * num_nodes)))
            idle := (List.range num_slots).countP
              (fun s => decide (numTransmissions stream num_nodes p (pos + s * num_nodes) = 0))
            throughput := (((List.range num_slots).countP
              (fun s => decide (numTransmissions stream num_nodes p (pos + s * num_nodes) = 1)) : ℝ))
              / (num_slots : ℝ)
            theoretical_max := 1 / Real.exp 1
            offered_load := (num_nodes : ℝ) * (p : ℝ)
            efficiency := ((((List.range num_slots).countP
              (fun s => decide (numTransmissions stream num_nodes p (pos + s * num_nodes) = 1)) : ℝ))
              / (num_slots : ℝ)) / (1 / Real.exp 1) * 100 }) := by
  rw [simulate_slotted_aloha]
  simp only [runLoop_eq]
  rw [if_neg h]
  simp

/-- C1: for every `SlotOutcome` produced by a run of the simulator, the status
is a pure function of the transmitter count alone: `"Idle"` iff the count is
`0`, `"Success"` iff it is `1`, `"Collision"` iff it is at least `2`. -/
theorem C1_status_pure_function (num_nodes : ℕ) (p : ℚ) (num_slots : ℕ)
    (stream : ℕ → ℚ) (pos : ℕ) (tr : List (ℕ × ℕ × String))
    (h : (simulate_slotted_aloha num_nodes p num_slots stream pos).toOption.map Prod.fst
      = some tr)
    (e : ℕ × ℕ × String) (he : e ∈ tr) :
    (e.2.2 = "Idle" ↔ e.2.1 = 0) ∧ (e.2.2 = "Success" ↔ e.2.1 = 1) ∧
      (e.2.2 = "Collision" ↔ 2 ≤ e.2.1) := by
  by_cases h0 : num_slots = 0
  · subst h0
    simp [simulate_slotted_aloha, Except.toOption] at h
  · have htr : tr = (List.range num_slots).map (slotEntry stream num_nodes p pos) := by
      rw [simulate_ok num_nodes p num_slots stream pos h0] at h
      simpa [Except.toOption] using h.symm
    subst htr
    rcases List.mem_map.mp he with ⟨s, _, rfl⟩
    exact ⟨slotStatus_eq_idle _, slotStatus_eq_success _, slotStatus_eq_collision _⟩

theorem C1_status_pure_function_witness :
    ((simulate_slotted_aloha 1 1 1 (fun _ => 0) 0).toOption.map Prod.fst
        = some [((0 : ℕ), (1 : ℕ), "Success")]) ∧
      ((0 : ℕ), (1 : ℕ), "Success") ∈ [((0 : ℕ), (1 : ℕ), "Success")] ∧
      ((("Success" : String) = "Idle" ↔ (1 : ℕ) = 0) ∧
        (("Success" : String) = "Success" ↔ (1 : ℕ) = 1) ∧
        (("Success" : String) = "Collision" ↔ 2 ≤ (1 : ℕ))) := by
  have hsim : (simulate_slotted_aloha 1 1 1 (fun _ => 0) 0).toOption.map Prod.fst
      = some [((0 : ℕ), (1 : ℕ), "Success")] := by decide
  have hmem : ((0 : ℕ), (1 : ℕ), "Success") ∈ [((0 : ℕ), (1 : ℕ), "Success")] := by decide
  exact ⟨hsim, hmem,
    C1_status_pure_function 1 1 1 (fun _ => 0) 0 _ hsim _ hmem⟩

/-- Each slot contributes to exactly one of the three counting predicates. -/
theorem countP_classes (L : List ℕ) (f : ℕ → ℕ) :
    L.countP (fun s => decide (f s = 1)) + L.countP (fun s => decide (2 ≤ f s)) +
      L.countP (fun s => decide (f s = 0)) = L.length := by
  induction L with
  | nil => simp
  | cons a l ih =>
    simp only [List.countP_cons, List.length_cons]
    have h1 : ((if decide (f a = 1) = true then 1 else 0) : ℕ) +
        (if decide (2 ≤ f a) = true then 1 else 0) +
        (if decide (f a = 0) = true then 1 else 0) = 1 := by
      rcases Nat.lt_or_ge (f a) 2 with h | h
      · interval_cases h2 : f a <;> simp
      · rw [if_neg (by simp; omega), if_pos (by simpa using h), if_neg (by simp; omega)]
    omega

/-- C2: for valid parameters the run succeeds, the trace has length exactly
`num_slots` with slot indices `0, 1, ..., num_slots - 1` in order, and the
three counters sum exactly to `num_slots`, each one counting the trace entries
carrying the corresponding status. -/
theorem C2_trace_length_and_conservation (num_nodes : ℕ) (p : ℚ) (num_slots : ℕ)
    (stream : ℕ → ℚ) (pos : ℕ)
    (hn : 1 ≤ num_nodes) (hp0 : 0 ≤ p) (hp1 : p ≤ 1) (hs : 1 ≤ num_slots) :
    ∃ tr st,
      simulate_slotted_aloha num_nodes p num_slots stream pos = Except.ok (tr, st) ∧
      tr.length = num_slots ∧
      tr.map Prod.fst = List.range num_slots ∧
      st.successful + st.collisions + st.idle = num_slots ∧
      st.successful = tr.countP (fun e => decide (e.2.2 = "Success")) ∧
      st.collisions = tr.countP (fun e => decide (e.2.2 = "Collision")) ∧
      st.idle = tr.countP (fun e => decide (e.2.2 = "Idle")) := by
  have h0 : num_slots ≠ 0 := by omega
  refine ⟨_, _, simulate_ok num_nodes p num_slots stream pos h0, ?_, ?_, ?_, ?_, ?_, ?_⟩
  · simp
  · have hcomp : (Prod.fst ∘ slotEntry stream num_nodes p pos) = fun s => s := rfl
    rw [List.map_map, hcomp, List.map_id']
  · simpa using countP_classes (List.range num_slots)
      (fun s => numTransmissions stream num_nodes p (pos + s * num_nodes))
  · rw [List.countP_map]
    refine List.countP_congr fun s _ => ?_
    simp only [Function.comp, slotEntry, decide_eq_true_eq]
    exact (slotStatus_eq_success _).symm
  · rw [List.countP_map]
    refine List.countP_congr fun s _ => ?_
    simp only [Function.comp, slotEntry, decide_eq_true_eq]
    exact (slotStatus_eq_collision _).symm
  · rw [List.countP_map]
    refine List.countP_congr fun s _ => ?_
    simp only [Function.comp, slotEntry, decide_eq_true_eq]
    exact (slotStatus_eq_idle _).symm

theorem C2_trace_length_and_conservation_witness :
    ((1 : ℕ) ≤ 1 ∧ (0 : ℚ) ≤ 1 ∧ (1 : ℚ) ≤ 1 ∧ (1 : ℕ) ≤ 1) ∧
      ∃ tr st,
        simulate_slotted_aloha 1 1 1 (fun _ => 0) 0 = Except.ok (tr, st) ∧
        tr.length = 1 ∧
        tr.map Prod.fst = List.range 1 ∧
        st.successful + st.collisions + st.idle = 1 ∧
        st.successful = tr.countP (fun e => decide (e.2.2 = "Success")) ∧
        st.collisions = tr.countP (fun e => decide (e.2.2 = "Collision")) ∧
        st.idle = tr.countP (fun e => decide (e.2.2 = "Idle")) :=
  ⟨⟨by decide, by decide, by decide, by decide⟩,
    C2_trace_length_and_conservation 1 1 1 (fun _ => 0) 0
      (by decide) (by decide) (by decide) (by decide)⟩

/-- C5: the derived statistics are exactly `throughput = successful/num_slots`
(a real in `[0, 1]`), `offered_load = num_nodes * p`,
`theoretical_max = 1/e`, and `efficiency` is the empirical throughput divided
by the constant `1/e`, times `100`. -/
theorem C5_derived_statistics (num_nodes : ℕ) (p : ℚ) (num_slots : ℕ)
    (stream : ℕ → ℚ) (pos : ℕ)
    (hn : 1 ≤ num_nodes) (hp0 : 0 ≤ p) (hp1 : p ≤ 1) (hs : 1 ≤ num_slots) :
    ∃ tr st,
      simulate_slotted_aloha num_nodes p num_slots stream pos = Except.ok (tr, st) ∧
      st.throughput = (st.successful : ℝ) / (num_slots : ℝ) ∧
      0 ≤ st.throughput ∧ st.throughput ≤ 1 ∧
      st.offered_load = (num_nodes : ℝ) * (p : ℝ) ∧
      st.theoretical_max = 1 / Real.exp 1 ∧
      st.efficiency = st.throughput / (1 / Real.exp 1) * 100 := by
  have h0 : num_slots ≠ 0 := by omega
  refine ⟨_, _, simulate_ok num_nodes p num_slots stream pos h0, rfl, ?_, ?_, rfl, rfl, rfl⟩
  · exact div_nonneg (Nat.cast_nonneg _) (Nat.cast_nonneg _)
  · rw [div_le_one (by exact_mod_cast Nat.pos_of_ne_zero h0)]
    have hle : (List.range num_slots).countP
        (fun s => decide (numTransmissions stream num_nodes p (pos + s * num_nodes) = 1))
        ≤ num_slots := by
      simpa using List.countP_le_length
        (p := fun s => decide (numTransmissions stream num_nodes p (pos + s * num_nodes) = 1))
        (l := List.range num_slots)
    exact_mod_cast hle

theorem C5_derived_statistics_witness :
    ((1 : ℕ) ≤ 1 ∧ (0 : ℚ) ≤ 1 ∧ (1 : ℚ) ≤ 1 ∧ (1 : ℕ) ≤ 1) ∧
      ∃ tr st,
        simulate_slotted_aloha 1 1 1 (fun _ => 0) 0 = Except.ok (tr, st) ∧
        st.throughput = (st.successful : ℝ) / ((1 : ℕ) : ℝ) ∧
        0 ≤ st.throughput ∧ st.throughput ≤ 1 ∧
        st.offered_load = ((1 : ℕ) : ℝ) * ((1 : ℚ) : ℝ) ∧
        st.theoretical_max = 1 / Real.exp 1 ∧
        st.efficiency = st.throughput / (1 / Real.exp 1) * 100 :=
  ⟨⟨by decide, by decide, by decide, by decide⟩,
    C5_derived_statistics 1 1 1 (fun _ => 0) 0 (by decide) (by decide) (by decide) (by decide)⟩

/-- C3 counterexample: with the invalid parameters `num_nodes = 0` and
`p = 5` (outside `[0, 1]`) the run does not fail at all: it returns a full
three-slot trace, so no `InvalidParameter` error is raised. -/
theorem C3_counterexample :
    (simulate_slotted_aloha 0 5 3 (fun _ => 0) 0).toOption.map Prod.fst
      = some [((0 : ℕ), (0 : ℕ), "Idle"), ((1 : ℕ), (0 : ℕ), "Idle"),
          ((2 : ℕ), (0 : ℕ), "Idle")] := by
  decide

/-- C3 amended: the engine performs no parameter validation whatsoever.  For
every `num_nodes` and every `p` — valid or not — and every `num_slots ≥ 1`,
the run completes normally with a trace of `num_slots` outcomes, and no input
ever produces an `InvalidParameter` error. -/
theorem C3_no_parameter_validation (num_nodes : ℕ) (p : ℚ) (num_slots : ℕ)
    (stream : ℕ → ℚ) (pos : ℕ) (hs : 1 ≤ num_slots) :
    (∃ tr st, simulate_slotted_aloha num_nodes p num_slots stream pos = Except.ok (tr, st) ∧
        tr.length = num_slots) ∧
      ∀ f, simulate_slotted_aloha num_nodes p num_slots stream pos
        ≠ Except.error (SimError.invalidParameter f) := by
  have h0 : num_slots ≠ 0 := by omega
  refine ⟨⟨_, _, simulate_ok num_nodes p num_slots stream pos h0, by simp⟩, fun f h => ?_⟩
  rw [simulate_ok num_nodes p num_slots stream pos h0] at h
  simp at h

theorem C3_no_parameter_validation_witness :
    ((1 : ℕ) ≤ 1 ∧
      (∃ tr st, simulate_slotted_aloha 0 5 1 (fun _ => 0) 0 = Except.ok (tr, st) ∧
        tr.length = 1) ∧
      ∀ f, simulate_slotted_aloha 0 5 1 (fun _ => 0) 0
        ≠ Except.error (SimError.invalidParameter f)) :=
  ⟨by decide, C3_no_parameter_validation 0 5 1 (fun _ => 0) 0 (by decide)⟩

/-- C10: the division computing `throughput` is guarded only by
`num_slots ≥ 1`: every run with `num_slots ≥ 1` returns normally for any
`num_nodes ≥ 0` and any `p`, while `num_slots = 0` raises the uncaught
`ZeroDivisionError` — not an `InvalidParameter` error — after the loop has
built an empty trace. -/
theorem C10_division_guard (num_nodes : ℕ) (p : ℚ) (num_slots : ℕ)
    (stream : ℕ → ℚ) (pos : ℕ) :
    (1 ≤ num_slots →
      ∃ tr st, simulate_slotted_aloha num_nodes p num_slots stream pos = Except.ok (tr, st)) ∧
    simulate_slotted_aloha num_nodes p 0 stream pos
      = Except.error SimError.zeroDivisionError ∧
    (runLoop num_nodes p stream pos (List.range 0) ⟨[], 0, 0, 0⟩).slots_data = [] ∧
    ∀ f, simulate_slotted_aloha num_nodes p num_slots stream pos
      ≠ Except.error (SimError.invalidParameter f) := by
  refine ⟨fun hs => ⟨_, _, simulate_ok num_nodes p num_slots stream pos (by omega)⟩,
    by rw [simulate_slotted_aloha]; simp, rfl, fun f h => ?_⟩
  by_cases h0 : num_slots = 0
  · subst h0
    rw [simulate_slotted_aloha] at h
    simp at h
  · rw [simulate_ok num_nodes p num_slots stream pos h0] at h
    simp at h

theorem C10_division_guard_witness :
    ((1 : ℕ) ≤ 1 ∧
        ∃ tr st, simulate_slotted_aloha 0 5 1 (fun _ => 0) 0 = Except.ok (tr, st)) ∧
      simulate_slotted_aloha 0 5 0 (fun _ => 0) 0
        = Except.error SimError.zeroDivisionError :=
  ⟨⟨by decide, (C10_division_guard 0 5 1 (fun _ => 0) 0).1 (by decide)⟩,
    (C10_division_guard 0 5 1 (fun _ => 0) 0).2.1⟩

/-- Every transmitter count is bounded by the node count. -/
theorem numTransmissions_le (stream : ℕ → ℚ) (num_nodes : ℕ) (p : ℚ) (base : ℕ) :
    numTransmissions stream num_nodes p base ≤ num_nodes := by
  have h := List.countP_le_length (p := fun i => decide (stream (base + i) < p))
    (l := List.range num_nodes)
  simpa [numTransmissions] using h

/-- With all draws in `[0, 1)` and `p = 0` no node ever transmits. -/
theorem numTransmissions_p_zero (stream : ℕ → ℚ)
    (h : ∀ k, 0 ≤ stream k ∧ stream k < 1) (num_nodes base : ℕ) :
    numTransmissions stream num_nodes 0 base = 0 := by
  rw [numTransmissions, List.countP_eq_zero]
  intro i _
  simp only [decide_eq_true_eq]
  exact not_lt.mpr (h _).1

/-- With all draws in `[0, 1)` and `p = 1` every node transmits. -/
theorem numTransmissions_p_one (stream : ℕ → ℚ)
    (h : ∀ k, 0 ≤ stream k ∧ stream k < 1) (num_nodes base : ℕ) :
    numTransmissions stream num_nodes 1 base = num_nodes := by
  have hall : ∀ a ∈ List.range num_nodes,
      (fun i => decide (stream (base + i) < 1)) a = true := by
    intro a _
    simpa using (h _).2
  calc numTransmissions stream num_nodes 1 base
      = (List.range num_nodes).length := List.countP_eq_length.mpr hall
    _ = num_nodes := List.length_range _

/-- C8: degenerate parameters.  With `p = 0` every slot is Idle and the
throughput is `0`; with `p = 1` and at least two nodes every slot is a
Collision with transmitter count `num_nodes` and no successes; with a single
node the transmitter count never exceeds `1`, so no slot is a Collision. -/
theorem C8_degenerate_parameters (stream : ℕ → ℚ)
    (hstream : ∀ k, 0 ≤ stream k ∧ stream k < 1)
    (num_nodes num_slots pos : ℕ) (p : ℚ) (hs : 1 ≤ num_slots) :
    (∃ tr st, simulate_slotted_aloha num_nodes 0 num_slots stream pos = Except.ok (tr, st) ∧
        (∀ e ∈ tr, e.2.2 = "Idle") ∧ st.throughput = 0) ∧
    (2 ≤ num_nodes →
      ∃ tr st, simulate_slotted_aloha num_nodes 1 num_slots stream pos = Except.ok (tr, st) ∧
        (∀ e ∈ tr, e.2.1 = num_nodes ∧ e.2.2 = "Collision") ∧ st.successful = 0) ∧
    (∃ tr st, simulate_slotted_aloha 1 p num_slots stream pos = Except.ok (tr, st) ∧
        ∀ e ∈ tr, e.2.1 ≤ 1 ∧ e.2.2 ≠ "Collision") := by
  have h0 : num_slots ≠ 0 := by omega
  refine ⟨?_, fun h2 => ?_, ?_⟩
  · refine ⟨_, _, simulate_ok num_nodes 0 num_slots stream pos h0, ?_, ?_⟩
    · intro e he
      rcases List.mem_map.mp he with ⟨s, _, rfl⟩
      show slotStatus (numTransmissions stream num_nodes 0 (pos + s * num_nodes)) = "Idle"
      rw [numTransmissions_p_zero stream hstream]
      rfl
    · show ((List.range num_slots).countP
          (fun s => decide (numTransmissions stream num_nodes 0 (pos + s * num_nodes) = 1)) : ℝ)
          / (num_slots : ℝ) = 0
      have hcnt : (List.range num_slots).countP
          (fun s => decide (numTransmissions stream num_nodes 0 (pos + s * num_nodes) = 1))
          = 0 := by
        rw [List.countP_eq_zero]
        intro s _
        rw [numTransmissions_p_zero stream hstream]
        simp
      rw [hcnt]
      simp
  · refine ⟨_, _, simulate_ok num_nodes 1 num_slots stream pos h0, ?_, ?_⟩
    · intro e he
      rcases List.mem_map.mp he with ⟨s, _, rfl⟩
      refine ⟨numTransmissions_p_one stream hstream num_nodes _, ?_⟩
      show slotStatus (numTransmissions stream num_nodes 1 (pos + s * num_nodes)) = "Collision"
      rw [numTransmissions_p_one stream hstream]
      exact (slotStatus_eq_collision _).mpr h2
    · show (List.range num_slots).countP
          (fun s => decide (numTransmissions stream num_nodes 1 (pos + s * num_nodes) = 1)) = 0
      rw [List.countP_eq_zero]
      intro s _
      rw [numTransmissions_p_one stream hstream]
      simp
      omega
  · refine ⟨_, _, simulate_ok 1 p num_slots stream pos h0, ?_⟩
    intro e he
    rcases List.mem_map.mp he with ⟨s, _, rfl⟩
    refine ⟨numTransmissions_le stream 1 p _, fun hc => ?_⟩
    have hc2 : slotStatus (numTransmissions stream 1 p (pos + s * 1)) = "Collision" := hc
    rw [slotStatus_eq_collision] at hc2
    have := numTransmissions_le stream 1 p (pos + s * 1)
    omega

theorem C8_degenerate_parameters_witness :
    (∃ tr st, simulate_slotted_aloha 2 0 1 (fun _ => 0) 0 = Except.ok (tr, st) ∧
        (∀ e ∈ tr, e.2.2 = "Idle") ∧ st.throughput = 0) ∧
    (2 ≤ 2 →
      ∃ tr st, simulate_slotted_aloha 2 1 1 (fun _ => 0) 0 = Except.ok (tr, st) ∧
        (∀ e ∈ tr, e.2.1 = 2 ∧ e.2.2 = "Collision") ∧ st.successful = 0) ∧
    (∃ tr st, simulate_slotted_aloha 1 1 1 (fun _ => 0) 0 = Except.ok (tr, st) ∧
        ∀ e ∈ tr, e.2.1 ≤ 1 ∧ e.2.2 ≠ "Collision") :=
  C8_degenerate_parameters (fun _ => 0) (fun _ => ⟨le_refl 0, by norm_num⟩) 2 1 0 1 (by decide)

/-- Two consecutive invocations with identical parameters sharing the global
NumPy generator, as the source performs them: the generator is modelled as the
draw stream plus a cursor, the first call starts at cursor `0` and the second
at the cursor left behind by the first (`num_slots * num_nodes` draws were
consumed). -/
noncomputable def repeated_runs (stream : ℕ → ℚ) (num_nodes : ℕ) (p : ℚ) (num_slots : ℕ) :
    Except SimError (List (ℕ × ℕ × String) × Statistics) ×
      Except SimError (List (ℕ × ℕ × String) × Statistics) :=
  (simulate_slotted_aloha num_nodes p num_slots stream 0,
    simulate_slotted_aloha num_nodes p num_slots stream (num_slots * num_nodes))

/-- C4 counterexample: the source owns no caller-supplied draw argument — it
reads the ambient global generator — so two invocations with identical
parameters need not agree: with the global stream starting `0, 7, ...` and
`p = 5`, the first run's slot is a Success and the second run's slot is Idle. -/
theorem C4_counterexample :
    ((repeated_runs (fun k => if k = 0 then 0 else 7) 1 5 1).1).toOption.map Prod.fst ≠
      ((repeated_runs (fun k => if k = 0 then 0 else 7) 1 5 1).2).toOption.map Prod.fst := by
  decide

/-- C4 amended: the run is a deterministic function of the parameters and of
the draw values actually consumed: two invocations that read identical draws
at their respective cursors produce identical traces and statistics. -/
theorem C4_determinism_in_consumed_draws (num_nodes : ℕ) (p : ℚ) (num_slots : ℕ)
    (s1 s2 : ℕ → ℚ) (pos1 pos2 : ℕ)
    (h : ∀ k, k < num_slots * num_nodes → s1 (pos1 + k) = s2 (pos2 + k)) :
    simulate_slotted_aloha num_nodes p num_slots s1 pos1
      = simulate_slotted_aloha num_nodes p num_slots s2 pos2 := by
  have hcnt : ∀ s < num_slots, numTransmissions s1 num_nodes p (pos1 + s * num_nodes)
      = numTransmissions s2 num_nodes p (pos2 + s * num_nodes) := by
    intro s hsl
    rw [numTransmissions, numTransmissions]
    refine List.countP_congr fun i hi => ?_
    rw [List.mem_range] at hi
    have hk : s * num_nodes + i < num_slots * num_nodes := by
      calc s * num_nodes + i < s * num_nodes + num_nodes := by omega
        _ = (s + 1) * num_nodes := by ring
        _ ≤ num_slots * num_nodes := Nat.mul_le_mul_right _ (by omega)
    have heq := h (s * num_nodes + i) hk
    simp only [decide_eq_true_eq]
    rw [Nat.add_assoc, Nat.add_assoc, heq]
  have hacc : runLoop num_nodes p s1 pos1 (List.range num_slots) ⟨[], 0, 0, 0⟩
      = runLoop num_nodes p s2 pos2 (List.range num_slots) ⟨[], 0, 0, 0⟩ := by
    rw [runLoop_eq, runLoop_eq]
    have hmap : (List.range num_slots).map (slotEntry s1 num_nodes p pos1)
        = (List.range num_slots).map (slotEntry s2 num_nodes p pos2) := by
      refine List.map_congr_left fun s hs => ?_
      rw [List.mem_range] at hs
      simp only [slotEntry, hcnt s hs]
    have hc1 : (List.range num_slots).countP
        (fun s => decide (numTransmissions s1 num_nodes p (pos1 + s * num_nodes) = 1))
        = (List.range num_slots).countP
          (fun s => decide (numTransmissions s2 num_nodes p (pos2 + s * num_nodes) = 1)) := by
      refine List.countP_congr fun s hs => ?_
      rw [List.mem_range] at hs
      simp [hcnt s hs]
    have hc2 : (List.range num_slots).countP
        (fun s => decide (2 ≤ numTransmissions s1 num_nodes p (pos1 + s * num_nodes)))
        = (List.range num_slots).countP
          (fun s => decide (2 ≤ numTransmissions s2 num_nodes p (pos2 + s * num_nodes))) := by
      refine List.countP_congr fun s hs => ?_
      rw [List.mem_range] at hs
      simp [hcnt s hs]
    have hc0 : (List.range num_slots).countP
        (fun s => decide (numTransmissions s1 num_nodes p (pos1 + s * num_nodes) = 0))
        = (List.range num_slots).countP
          (fun s => decide (numTransmissions s2 num_nodes p (pos2 + s * num_nodes) = 0)) := by
      refine List.countP_congr fun s hs => ?_
      rw [List.mem_range] at hs
      simp [hcnt s hs]
    rw [hmap, hc1, hc2, hc0]
  rw [simulate_slotted_aloha, simulate_slotted_aloha, hacc]

theorem C4_determinism_in_consumed_draws_witness :
    simulate_slotted_aloha 1 5 2 (fun k => if k < 2 then 0 else 7) 0
      = simulate_slotted_aloha 1 5 2 (fun _ => 0) 5 :=
  C4_determinism_in_consumed_draws 1 5 2 (fun k => if k < 2 then 0 else 7) (fun _ => 0) 0 5
    (fun k hk => by
      show (if 0 + k < 2 then (0 : ℚ) else 7) = 0
      rw [if_pos (by omega)])

/-- The theoretical curve never exceeds its value at `G = 1`. -/
theorem mul_exp_neg_le_exp_neg_one (g : ℝ) : g * Real.exp (-g) ≤ Real.exp (-1) := by
  have h1 : g ≤ Real.exp (g - 1) := by
    have h := Real.add_one_le_exp (g - 1)
    linarith
  have h2 : (0 : ℝ) ≤ Real.exp (-g) := (Real.exp_pos _).le
  calc g * Real.exp (-g) ≤ Real.exp (g - 1) * Real.exp (-g) :=
        mul_le_mul_of_nonneg_right h1 h2
    _ = Real.exp (-1) := by
        rw [← Real.exp_add]
        congr 1
        ring

/-- C6: the curve returns one output per input, each computed as
`S(G) = G * exp (-G)`; on `[1.0]` it returns `1 * exp (-1)`, and over any
sampled range containing `G = 1` the maximum value is attained at `G = 1`
with value `exp (-1) = 1/e`. -/
theorem C6_theoretical_curve (L : List ℝ) (hnonneg : ∀ g ∈ L, 0 ≤ g)
    (h1 : (1 : ℝ) ∈ L) :
    get_theoretical_throughput [(1 : ℝ)] = [1 * Real.exp (-1)] ∧
    (get_theoretical_throughput L).length = L.length ∧
    (∀ i : ℕ, (get_theoretical_throughput L).get? i
      = (L.get? i).map fun G => G * Real.exp (-G)) ∧
    (1 : ℝ) * Real.exp (-1) ∈ get_theoretical_throughput L ∧
    (∀ y ∈ get_theoretical_throughput L, y ≤ Real.exp (-1)) ∧
    Real.exp (-1) = 1 / Real.exp 1 := by
  refine ⟨rfl, by simp [get_theoretical_throughput], fun i => ?_, ?_, ?_, ?_⟩
  · rw [get_theoretical_throughput, List.get?_map]
  · exact List.mem_map_of_mem _ h1
  · intro y hy
    rcases List.mem_map.mp hy with ⟨g, _, rfl⟩
    exact mul_exp_neg_le_exp_neg_one g
  · rw [Real.exp_neg, one_div]

theorem C6_theoretical_curve_witness :
    ((1 : ℝ) ∈ [(0 : ℝ), 1, 2]) ∧
      (get_theoretical_throughput [(1 : ℝ)] = [1 * Real.exp (-1)] ∧
       (get_theoretical_throughput [(0 : ℝ), 1, 2]).length
         = ([(0 : ℝ), 1, 2] : List ℝ).length ∧
       (∀ i : ℕ, (get_theoretical_throughput [(0 : ℝ), 1, 2]).get? i
         = (([(0 : ℝ), 1, 2] : List ℝ).get? i).map fun G => G * Real.exp (-G)) ∧
       (1 : ℝ) * Real.exp (-1) ∈ get_theoretical_throughput [(0 : ℝ), 1, 2] ∧
       (∀ y ∈ get_theoretical_throughput [(0 : ℝ), 1, 2], y ≤ Real.exp (-1)) ∧
       Real.exp (-1) = 1 / Real.exp 1) :=
  ⟨by norm_num, C6_theoretical_curve [(0 : ℝ), 1, 2] (by norm_num) (by norm_num)⟩

/-- C7 counterexample: a negative load is not rejected before computation —
on input `[-1]` the function computes and returns the (negative) value
`(-1) * exp 1`. -/
theorem C7_counterexample :
    get_theoretical_throughput [(-1 : ℝ)] = [-Real.exp 1] ∧ (-Real.exp 1 : ℝ) < 0 := by
  constructor
  · simp [get_theoretical_throughput]
  · simpa using Real.exp_pos 1

/-- C7 amended: `get_theoretical_throughput` performs no domain check at all:
it is total over every real input list — negative loads included — and always
returns one value `G * exp (-G)` per input, so in particular it cannot fail on
non-negative inputs. -/
theorem C7_totality (L : List ℝ) :
    (get_theoretical_throughput L).length = L.length ∧
    ∀ i : ℕ, (get_theoretical_throughput L).get? i
      = (L.get? i).map fun G => G * Real.exp (-G) :=
  ⟨by simp [get_theoretical_throughput],
    fun i => by rw [get_theoretical_throughput, List.get?_map]⟩

/-- Decimal digit character (`'0'` through `'9'`). -/
def digitChar (d : ℕ) : Char := Char.ofNat (48 + d)

/-- Fuel-indexed decimal rendering, most significant digit first. -/
def renderNatAux : ℕ → ℕ → List Char
  | 0, _ => []
  | fuel + 1, n =>
    if n < 10 then [digitChar n]
    else renderNatAux fuel (n / 10) ++ [digitChar (n % 10)]

/-- Decimal rendering of a natural number, as Python's `str` and pandas print
the `Slot` and `Transmissions` integers (`"0"` for zero, no sign, no
padding). -/
def renderNat (n : ℕ) : List Char := renderNatAux (n + 1) n

/-- Value of a decimal digit character, `none` for any other character. -/
def digitVal (c : Char) : Option ℕ :=
  if '0' ≤ c ∧ c ≤ '9' then some (c.toNat - 48) else none

/-- Left-to-right accumulating decimal parse of a digit string. -/
def parseNatFrom : List Char → ℕ → Option ℕ
  | [], acc => some acc
  | c :: cs, acc =>
    match digitVal c with
    | some d => parseNatFrom cs (10 * acc + d)
    | none => none

/-- Parse a non-empty all-digit string as a natural number. -/
def parseNat (cs : List Char) : Option ℕ :=
  if cs = [] then none else parseNatFrom cs 0

/-- Split a character list at every occurrence of `sep`; always returns one
more segment than there are separators. -/
def splitChar (sep : Char) : List Char → List (List Char)
  | [] => [[]]
  | c :: cs =>
    if c = sep then [] :: splitChar sep cs
    else
      match splitChar sep cs with
      | [] => [[c]]
      | g :: gs => (c :: g) :: gs

/-- One CSV data row for a slot outcome, as pandas `to_csv` writes the
row of the `['Slot', 'Transmissions', 'Status']` data frame: the two numbers
and the status string joined by commas (no quoting is needed because no field
contains a comma). -/
def csv_row (e : ℕ × ℕ × String) : List Char :=
  renderNat e.1 ++ ',' :: (renderNat e.2.1 ++ ',' :: e.2.2.data)

/-- Serialization of a trace as produced by
`pd.DataFrame(slots_data, columns=['Slot', 'Transmissions', 'Status'])` and
`df.to_csv(index=False)`: the literal header line, then one row per outcome
in trace order, each line terminated by a newline. -/
def to_csv (tr : List (ℕ × ℕ × String)) : String :=
  ⟨"Slot,Transmissions,Status".data ++ '\n' ::
    tr.foldr (fun e acc => csv_row e ++ '\n' :: acc) []⟩

/-- Modelled from the spec: the repository only downloads the CSV file and
contains no parser, but the export round-trip property requires re-parsing.
Parses one data row `slot,transmissions,status`. -/
def parseRow (cs : List Char) : Option (ℕ × ℕ × String) :=
  match splitChar ',' cs with
  | [a, b, c] =>
    match parseNat a, parseNat b with
    | some x, some y => some (x, y, ⟨c⟩)
    | _, _ => none
  | _ => none

/-- Modelled from the spec: parses the data rows of the file; the final
newline leaves one empty trailing segment, which terminates the list. -/
def parseRows : List (List Char) → Option (List (ℕ × ℕ × String))
  | [] => none
  | l :: rest =>
    if rest = [] then if l = [] then some [] else none
    else (parseRow l).bind fun e => (parseRows rest).map fun es => e :: es

/-- Modelled from the spec: re-parses a serialized trace — checks the literal
header line, then parses each data row in order. -/
def parse_csv (s : String) : Option (List (ℕ × ℕ × String)) :=
  match splitChar '\n' s.data with
  | [] => none
  | header :: rest =>
    if header = "Slot,Transmissions,Status".data then parseRows rest else none

theorem digitVal_digitChar {d : ℕ} (h : d < 10) : digitVal (digitChar d) = some d := by
  interval_cases d <;> decide

theorem digitChar_toNat {d : ℕ} (h : d < 10) : (digitChar d).toNat = 48 + d := by
  interval_cases d <;> decide

theorem renderNatAux_mem : ∀ fuel n c, c ∈ renderNatAux fuel n →
    ∃ d, d < 10 ∧ c = digitChar d := by
  intro fuel
  induction fuel with
  | zero =>
    intro n c hc
    simp [renderNatAux] at hc
  | succ f ih =>
    intro n c hc
    rw [renderNatAux] at hc
    split at hc
    · next h10 =>
      simp only [List.mem_singleton] at hc
      exact ⟨n, h10, hc⟩
    · rcases List.mem_append.mp hc with h | h
      · exact ih _ _ h
      · simp only [List.mem_singleton] at h
        exact ⟨n % 10, Nat.mod_lt _ (by omega), h⟩

theorem comma_not_mem_renderNat (n : ℕ) : ',' ∉ renderNat n := by
  intro hc
  rcases renderNatAux_mem _ _ _ hc with ⟨d, hd, heq⟩
  have h1 : (',' : Char).toNat = 48 + d := by rw [heq, digitChar_toNat hd]
  have h2 : (',' : Char).toNat = 44 := by decide
  omega

theorem newline_not_mem_renderNat (n : ℕ) : ('\n' : Char) ∉ renderNat n := by
  intro hc
  rcases renderNatAux_mem _ _ _ hc with ⟨d, hd, heq⟩
  have h1 : ('\n' : Char).toNat = 48 + d := by rw [heq, digitChar_toNat hd]
  have h2 : ('\n' : Char).toNat = 10 := by decide
  omega

theorem renderNat_ne_nil (n : ℕ) : renderNat n ≠ [] := by
  rw [renderNat, renderNatAux]
  split <;> simp

theorem parseNatFrom_single {d acc : ℕ} (h : d < 10) :
    parseNatFrom [digitChar d] acc = some (10 * acc + d) := by
  simp [parseNatFrom, digitVal_digitChar h]

theorem parseNatFrom_append (xs ys : List Char) (acc : ℕ) :
    parseNatFrom (xs ++ ys) acc
      = (parseNatFrom xs acc).bind fun a => parseNatFrom ys a := by
  induction xs generalizing acc with
  | nil => rfl
  | cons c cs ih =>
    cases hd : digitVal c with
    | none => simp [parseNatFrom, hd]
    | some d => simp [parseNatFrom, hd, ih]

theorem parseNatFrom_renderNatAux : ∀ fuel n acc, n < fuel →
    parseNatFrom (renderNatAux fuel n) acc
      = some (acc * 10 ^ (renderNatAux fuel n).length + n) := by
  intro fuel
  induction fuel with
  | zero =>
    intro n acc h
    omega
  | succ f ih =>
    intro n acc h
    rw [renderNatAux]
    split
    · next h10 =>
      rw [parseNatFrom_single h10]
      simp only [List.length_singleton]
      congr 1
      ring
    · next h10 =>
      have hdiv : n / 10 < f := by
        have h1 : n / 10 < n := Nat.div_lt_self (by omega) (by omega)
        omega
      rw [parseNatFrom_append, ih (n / 10) acc hdiv]
      simp only [Option.some_bind]
      rw [parseNatFrom_single (Nat.mod_lt _ (by omega))]
      simp only [List.length_append, List.length_singleton]
      congr 1
      rw [pow_succ]
      calc 10 * (acc * 10 ^ (renderNatAux f (n / 10)).length + n / 10) + n % 10
          = acc * (10 ^ (renderNatAux f (n / 10)).length * 10)
              + (10 * (n / 10) + n % 10) := by ring
        _ = acc * (10 ^ (renderNatAux f (n / 10)).length * 10) + n := by
            rw [Nat.div_add_mod]

theorem parseNat_renderNat (n : ℕ) : parseNat (renderNat n) = some n := by
  rw [parseNat, if_neg (renderNat_ne_nil n), renderNat,
    parseNatFrom_renderNatAux (n + 1) n 0 (by omega)]
  simp

theorem splitChar_not_mem {sep : Char} {xs : List Char} (h : sep ∉ xs) :
    splitChar sep xs = [xs] := by
  induction xs with
  | nil => rfl
  | cons c cs ih =>
    have hc : ¬ c = sep := fun hceq => h (by rw [← hceq]; exact List.mem_cons_self c cs)
    have hcs : sep ∉ cs := fun hm => h (List.mem_cons_of_mem _ hm)
    rw [splitChar, if_neg hc, ih hcs]

theorem splitChar_append {sep : Char} (xs ys : List Char) (h : sep ∉ xs) :
    splitChar sep (xs ++ sep :: ys) = xs :: splitChar sep ys := by
  induction xs with
  | nil =>
    rw [List.nil_append, splitChar, if_pos rfl]
  | cons c cs ih =>
    have hc : ¬ c = sep := fun hceq => h (by rw [← hceq]; exact List.mem_cons_self c cs)
    have hcs : sep ∉ cs := fun hm => h (List.mem_cons_of_mem _ hm)
    rw [List.cons_append, splitChar, if_neg hc, ih hcs]

theorem parseRow_csv_row (e : ℕ × ℕ × String) (hcomma : ',' ∉ e.2.2.data) :
    parseRow (csv_row e) = some e := by
  obtain ⟨a, b, s⟩ := e
  have hsplit : splitChar ',' (csv_row (a, b, s)) = [renderNat a, renderNat b, s.data] := by
    show splitChar ',' (renderNat a ++ ',' :: (renderNat b ++ ',' :: s.data)) = _
    rw [splitChar_append _ _ (comma_not_mem_renderNat a),
      splitChar_append _ _ (comma_not_mem_renderNat b),
      splitChar_not_mem hcomma]
  rw [parseRow, hsplit]
  simp only [parseNat_renderNat]

theorem csv_row_ne_nil (e : ℕ × ℕ × String) : csv_row e ≠ [] := by
  rw [csv_row]
  intro hc
  exact renderNat_ne_nil e.1 (List.append_eq_nil.mp hc).1

theorem parseRows_map (tr : List (ℕ × ℕ × String))
    (h : ∀ e ∈ tr, ',' ∉ e.2.2.data) :
    parseRows (tr.map csv_row ++ [[]]) = some tr := by
  induction tr with
  | nil => rfl
  | cons e es ih =>
    rw [List.map_cons, List.cons_append, parseRows,
      if_neg (by simp),
      parseRow_csv_row e (h e (List.mem_cons_self e es)),
      ih fun x hx => h x (List.mem_cons_of_mem _ hx)]
    rfl

theorem newline_not_mem_csv_row (e : ℕ × ℕ × String)
    (hs : ('\n' : Char) ∉ e.2.2.data) : ('\n' : Char) ∉ csv_row e := by
  intro hc
  rw [csv_row] at hc
  rcases List.mem_append.mp hc with h | h
  · exact newline_not_mem_renderNat _ h
  · rcases List.mem_cons.mp h with h | h
    · exact (by decide : ('\n' : Char) ≠ ',') h
    · rcases List.mem_append.mp h with h | h
      · exact newline_not_mem_renderNat _ h
      · rcases List.mem_cons.mp h with h | h
        · exact (by decide : ('\n' : Char) ≠ ',') h
        · exact hs h

theorem status_literal_chars (s : String)
    (h : s = "Idle" ∨ s = "Success" ∨ s = "Collision") :
    ',' ∉ s.data ∧ ('\n' : Char) ∉ s.data := by
  rcases h with rfl | rfl | rfl <;> exact ⟨by decide, by decide⟩

theorem splitChar_foldr_rows (tr : List (ℕ × ℕ × String))
    (h : ∀ e ∈ tr, ('\n' : Char) ∉ csv_row e) :
    splitChar '\n' (tr.foldr (fun e acc => csv_row e ++ '\n' :: acc) [])
      = tr.map csv_row ++ [[]] := by
  induction tr with
  | nil => rfl
  | cons e es ih =>
    rw [List.foldr_cons, splitChar_append _ _ (h e (List.mem_cons_self e es)),
      ih fun x hx => h x (List.mem_cons_of_mem _ hx), List.map_cons, List.cons_append]

theorem splitChar_to_csv (tr : List (ℕ × ℕ × String))
    (h : ∀ e ∈ tr, ('\n' : Char) ∉ csv_row e) :
    splitChar '\n' (to_csv tr).data
      = "Slot,Transmissions,Status".data :: (tr.map csv_row ++ [[]]) := by
  show splitChar '\n' ("Slot,Transmissions,Status".data ++ '\n' :: _) = _
  rw [splitChar_append _ _ (by decide), splitChar_foldr_rows tr h]

/-- C9: the serialized trace consists of the literal header line
`Slot,Transmissions,Status` followed by exactly one three-column row per slot
outcome in trace order (splitting the file on newlines yields the header, the
rows in order, and the empty trailing segment), and re-parsing the serialized
form reproduces the original trace. -/
theorem C9_export_round_trip (tr : List (ℕ × ℕ × String))
    (hstatus : ∀ e ∈ tr, e.2.2 = "Idle" ∨ e.2.2 = "Success" ∨ e.2.2 = "Collision") :
    to_csv [] = "Slot,Transmissions,Status\n" ∧
    splitChar '\n' (to_csv tr).data
      = "Slot,Transmissions,Status".data :: (tr.map csv_row ++ [[]]) ∧
    parse_csv (to_csv tr) = some tr := by
  have hnl : ∀ e ∈ tr, ('\n' : Char) ∉ csv_row e := fun e he =>
    newline_not_mem_csv_row e (status_literal_chars _ (hstatus e he)).2
  have hcm : ∀ e ∈ tr, ',' ∉ e.2.2.data := fun e he =>
    (status_literal_chars _ (hstatus e he)).1
  refine ⟨by decide, splitChar_to_csv tr hnl, ?_⟩
  simp only [parse_csv, splitChar_to_csv tr hnl, if_true]
  exact parseRows_map tr hcm

theorem C9_export_round_trip_witness :
    to_csv [] = "Slot,Transmissions,Status\n" ∧
    splitChar '\n'
        (to_csv [((0 : ℕ), (0 : ℕ), "Idle"), ((1 : ℕ), (1 : ℕ), "Success"),
          ((2 : ℕ), (3 : ℕ), "Collision")]).data
      = "Slot,Transmissions,Status".data ::
          (([((0 : ℕ), (0 : ℕ), "Idle"), ((1 : ℕ), (1 : ℕ), "Success"),
            ((2 : ℕ), (3 : ℕ), "Collision")].map csv_row) ++ [[]]) ∧
    parse_csv (to_csv [((0 : ℕ), (0 : ℕ), "Idle"), ((1 : ℕ), (1 : ℕ), "Success"),
        ((2 : ℕ), (3 : ℕ), "Collision")])
      = some [((0 : ℕ), (0 : ℕ), "Idle"), ((1 : ℕ), (1 : ℕ), "Success"),
          ((2 : ℕ), (3 : ℕ), "Collision")] :=
  C9_export_round_trip
    [((0 : ℕ), (0 : ℕ), "Idle"), ((1 : ℕ), (1 : ℕ), "Success"),
      ((2 : ℕ), (3 : ℕ), "Collision")] (by decide)
